import Mathlib

/-!
Shallow embedding of the 6502 CPU core in `src/cpu.rs` (repository
betterA/NES_study), together with theorems settling the specification
claims about it.

Modelling conventions:
- `u8`/`u16` values are `Nat`; wrapping operations (`wrapping_add`, `as u8`
  truncation) are explicit `% 256` / `% 65536`.
- Fallible operations (array indexing panics, `expect`, `panic!`, `todo!`)
  return `Except CpuError _`; a Rust panic is an `Except.error` value.
- The backing array is `memory: [u8; 0xFFFF]` in the source, i.e. 65535
  entries, so any index `≥ 0xFFFF` is out of bounds exactly as in the code.
-/

/-- The eight condition-code bits of the status register (bitflags `CpuFlags`
in the source, bit 0 = CARRY .. bit 7 = NEGATIV). -/
structure CpuFlags where
  CARRY : Bool
  ZERO : Bool
  INTERRUPT_DISABLE : Bool
  DECIMAL_MODE : Bool
  BREAK : Bool
  BREAK2 : Bool
  OVERFLOW : Bool
  NEGATIV : Bool
deriving DecidableEq

/-- Counterpart of bitflags `from_bits_truncate`: since all eight bits are
declared flags, it keeps the low eight bits of the argument. -/
def CpuFlags.from_bits_truncate (bits : Nat) : CpuFlags :=
  { CARRY := bits.testBit 0
    ZERO := bits.testBit 1
    INTERRUPT_DISABLE := bits.testBit 2
    DECIMAL_MODE := bits.testBit 3
    BREAK := bits.testBit 4
    BREAK2 := bits.testBit 5
    OVERFLOW := bits.testBit 6
    NEGATIV := bits.testBit 7 }

/-- The addressing-mode enum of the source. -/
inductive AddressingMode where
  | Immediate
  | ZeroPage
  | ZeroPage_X
  | ZeroPage_Y
  | Absolute
  | Absolute_X
  | Absolute_Y
  | Indirect_X
  | Indirect_Y
  | NoneAddressing
deriving DecidableEq

/-- The ways the Rust code can panic or abort a run: array indexing out of
bounds, the `expect` on an opcode missing from `OPCODES_MAP`, the `panic!`
in `get_operand_address` for `NoneAddressing`, and the `todo!` arm of the
dispatch match. -/
inductive CpuError where
  | memOutOfBounds (addr : Nat)
  | unknownOpcode (code : Nat)
  | unsupportedMode (mode : AddressingMode)
  | notImplemented (code : Nat)
deriving DecidableEq

/-- Length of the backing array: the source declares `memory: [u8; 0xFFFF]`,
which is 65535 entries (addresses 0x0000 through 0xFFFE). -/
def MEMORY_SIZE : Nat := 0xFFFF

def STACK : Nat := 0x0100

def STACK_RESET : Nat := 0xfd

/-- The CPU state, mirroring `pub struct CPU`. `memory` is the backing
array, total as a function but only indices below `MEMORY_SIZE` are valid
(reads/writes beyond that panic, see `CPU.mem_read`). -/
structure CPU where
  register_a : Nat
  register_x : Nat
  register_y : Nat
  status : CpuFlags
  program_counter : Nat
  stack_pointer : Nat
  memory : Nat → Nat

/-- `fn mem_read`: `self.memory[addr as usize]`, which panics (here: errors)
for `addr ≥ 0xFFFF` because the array has only 0xFFFF entries. -/
def CPU.mem_read (cpu : CPU) (addr : Nat) : Except CpuError Nat :=
  if addr < MEMORY_SIZE then .ok (cpu.memory addr) else .error (.memOutOfBounds addr)

/-- `fn mem_write`: `self.memory[addr as usize] = data`, same bound. -/
def CPU.mem_write (cpu : CPU) (addr data : Nat) : Except CpuError CPU :=
  if addr < MEMORY_SIZE then
    .ok { cpu with memory := fun i => if i = addr then data else cpu.memory i }
  else .error (.memOutOfBounds addr)

/-- `fn mem_read_u16`: little-endian, low byte at `pos`, high at `pos + 1`,
combined as `(hi << 8) | lo`. -/
def CPU.mem_read_u16 (cpu : CPU) (pos : Nat) : Except CpuError Nat := do
  let lo ← cpu.mem_read pos
  let hi ← cpu.mem_read (pos + 1)
  return (hi <<< 8) ||| lo

/-- `fn mem_write_u16`: stores `data & 0xff` at `pos` and the truncated
high byte `(data >> 8) as u8` at `pos + 1`. -/
def CPU.mem_write_u16 (cpu : CPU) (pos data : Nat) : Except CpuError CPU := do
  let hi := (data >>> 8) % 256
  let lo := data &&& 0xff
  let cpu1 ← cpu.mem_write pos lo
  cpu1.mem_write (pos + 1) hi

/-- `CPU::new`. -/
def CPU.new : CPU :=
  { register_a := 0
    register_x := 0
    register_y := 0
    stack_pointer := STACK_RESET
    status := CpuFlags.from_bits_truncate 0b100100
    program_counter := 0
    memory := fun _ => 0 }

/-- `CPU::reset`: zeroes A and X, restores the power-on status byte, and
loads the program counter from the little-endian reset vector at 0xFFFC.
Y, the stack pointer and memory are not touched. -/
def CPU.reset (cpu : CPU) : Except CpuError CPU := do
  let pc ← cpu.mem_read_u16 0xFFFC
  return { cpu with
    register_a := 0
    register_x := 0
    status := CpuFlags.from_bits_truncate 0b100100
    program_counter := pc }

/-- `CPU::load`: copies the program image into memory starting at 0x8000
via a slice copy (which panics when `0x8000 + program.len()` exceeds the
array length 0xFFFF), then writes 0x8000 as the reset vector at 0xFFFC. -/
def CPU.load (cpu : CPU) (program : List Nat) : Except CpuError CPU :=
  if 0x8000 + program.length ≤ MEMORY_SIZE then
    let loaded : CPU := { cpu with
      memory := fun i =>
        if 0x8000 ≤ i ∧ i < 0x8000 + program.length then program.getD (i - 0x8000) 0
        else cpu.memory i }
    loaded.mem_write_u16 0xFFFC 0x8000
  else .error (.memOutOfBounds (0x8000 + program.length))

/-- `CPU::update_zero_and_negative_flags`: sets/clears ZERO on
`register_value == 0` and NEGATIV on bit 7 of `register_value`. -/
def CPU.update_zero_and_negative_flags (cpu : CPU) (register_value : Nat) : CPU :=
  let cpu1 :=
    if register_value = 0 then { cpu with status := { cpu.status with ZERO := true } }
    else { cpu with status := { cpu.status with ZERO := false } }
  if register_value &&& 0b10000000 ≠ 0 then
    { cpu1 with status := { cpu1.status with NEGATIV := true } }
  else { cpu1 with status := { cpu1.status with NEGATIV := false } }

/-- `CPU::get_operand_address`. All `wrapping_add` on `u8` is `% 256`, on
`u16` is `% 65536`; `NoneAddressing` hits the `panic!` arm. -/
def CPU.get_operand_address (cpu : CPU) (mode : AddressingMode) : Except CpuError Nat :=
  match mode with
  | .Immediate => .ok cpu.program_counter
  | .ZeroPage => cpu.mem_read cpu.program_counter
  | .Absolute => cpu.mem_read_u16 cpu.program_counter
  | .ZeroPage_X => do
      let pos ← cpu.mem_read cpu.program_counter
      return (pos + cpu.register_x) % 256
  | .ZeroPage_Y => do
      let pos ← cpu.mem_read cpu.program_counter
      return (pos + cpu.register_y) % 256
  | .Absolute_X => do
      let base ← cpu.mem_read_u16 cpu.program_counter
      return (base + cpu.register_x) % 65536
  | .Absolute_Y => do
      let base ← cpu.mem_read_u16 cpu.program_counter
      return (base + cpu.register_y) % 65536
  | .Indirect_X => do
      let base ← cpu.mem_read cpu.program_counter
      let ptr := (base + cpu.register_x) % 256
      let lo ← cpu.mem_read ptr
      let hi ← cpu.mem_read ((ptr + 1) % 256)
      return (hi <<< 8) ||| lo
  | .Indirect_Y => do
      let base ← cpu.mem_read cpu.program_counter
      let lo ← cpu.mem_read base
      let hi ← cpu.mem_read ((base + 1) % 256)
      let deref_base := (hi <<< 8) ||| lo
      return (deref_base + cpu.register_y) % 65536
  | .NoneAddressing => .error (.unsupportedMode .NoneAddressing)

/-- `CPU::lda`. -/
def CPU.lda (cpu : CPU) (mode : AddressingMode) : Except CpuError CPU := do
  let addr ← cpu.get_operand_address mode
  let value ← cpu.mem_read addr
  let cpu1 := { cpu with register_a := value }
  return cpu1.update_zero_and_negative_flags cpu1.register_a

/-- `CPU::ldx`. -/
def CPU.ldx (cpu : CPU) (mode : AddressingMode) : Except CpuError CPU := do
  let addr ← cpu.get_operand_address mode
  let value ← cpu.mem_read addr
  let cpu1 := { cpu with register_x := value }
  return cpu1.update_zero_and_negative_flags cpu1.register_x

/-- `CPU::ldy`. -/
def CPU.ldy (cpu : CPU) (mode : AddressingMode) : Except CpuError CPU := do
  let addr ← cpu.get_operand_address mode
  let data ← cpu.mem_read addr
  let cpu1 := { cpu with register_y := data }
  return cpu1.update_zero_and_negative_flags cpu1.register_y

/-- `CPU::sta`. -/
def CPU.sta (cpu : CPU) (mode : AddressingMode) : Except CpuError CPU := do
  let addr ← cpu.get_operand_address mode
  cpu.mem_write addr cpu.register_a

/-- `CPU::stx`. -/
def CPU.stx (cpu : CPU) (mode : AddressingMode) : Except CpuError CPU := do
  let addr ← cpu.get_operand_address mode
  cpu.mem_write addr cpu.register_x

/-- `CPU::sty`. -/
def CPU.sty (cpu : CPU) (mode : AddressingMode) : Except CpuError CPU := do
  let addr ← cpu.get_operand_address mode
  cpu.mem_write addr cpu.register_y

/-- `CPU::adc`: `register_a.wrapping_add(data)` (no carry modelling yet,
as in the source). -/
def CPU.adc (cpu : CPU) (mode : AddressingMode) : Except CpuError CPU := do
  let addr ← cpu.get_operand_address mode
  let data ← cpu.mem_read addr
  let cpu1 := { cpu with register_a := (cpu.register_a + data) % 256 }
  return cpu1.update_zero_and_negative_flags cpu1.register_a

/-- `CPU::inx`: `register_x.wrapping_add(1)`. -/
def CPU.inx (cpu : CPU) : CPU :=
  let cpu1 := { cpu with register_x := (cpu.register_x + 1) % 256 }
  cpu1.update_zero_and_negative_flags cpu1.register_x

/-- `CPU::tax`. -/
def CPU.tax (cpu : CPU) : CPU :=
  let cpu1 := { cpu with register_x := cpu.register_a }
  cpu1.update_zero_and_negative_flags cpu1.register_x

/-- One row of the opcode table (`opscodes::OpCode`). -/
structure OpCode where
  code : Nat
  mnemonic : String
  len : Nat
  cycles : Nat
  mode : AddressingMode
deriving DecidableEq

/-- Modelled from the spec: module `opscodes` (referenced as
`crate::opscodes` by `cpu.rs`) is not under `src/`, so its opcode rows are
reconstructed from the specification: one row per opcode byte of every
mnemonic of the in-scope instruction set of section 4.6 — the load family
into A/X/Y, the store family for A/X/Y, transfer A to X, increment X,
add-with-carry and the break opcode — with the standard 6502 addressing
mode, total length and base cycle count for each byte (the mode/length
pairing required by section 3 and the lengths the scenarios of section 8
rely on). Bytes outside the in-scope set (for example 0x02) have no row.
Note that `CPU::run`'s dispatch match handles only LDA, STA, immediate
ADC, INX, TAX and BRK, so the LDX/LDY/STX/STY rows and the non-immediate
ADC rows below are reachable in a fetch yet fall to the match's `todo!()`
arm. -/
def CPU_OPS_CODES : List OpCode :=
  [⟨0x00, "BRK", 1, 7, .NoneAddressing⟩,
   ⟨0xAA, "TAX", 1, 2, .NoneAddressing⟩,
   ⟨0xE8, "INX", 1, 2, .NoneAddressing⟩,
   ⟨0x69, "ADC", 2, 2, .Immediate⟩,
   ⟨0x65, "ADC", 2, 3, .ZeroPage⟩,
   ⟨0x75, "ADC", 2, 4, .ZeroPage_X⟩,
   ⟨0x6D, "ADC", 3, 4, .Absolute⟩,
   ⟨0x7D, "ADC", 3, 4, .Absolute_X⟩,
   ⟨0x79, "ADC", 3, 4, .Absolute_Y⟩,
   ⟨0x61, "ADC", 2, 6, .Indirect_X⟩,
   ⟨0x71, "ADC", 2, 5, .Indirect_Y⟩,
   ⟨0xA9, "LDA", 2, 2, .Immediate⟩,
   ⟨0xA5, "LDA", 2, 3, .ZeroPage⟩,
   ⟨0xB5, "LDA", 2, 4, .ZeroPage_X⟩,
   ⟨0xAD, "LDA", 3, 4, .Absolute⟩,
   ⟨0xBD, "LDA", 3, 4, .Absolute_X⟩,
   ⟨0xB9, "LDA", 3, 4, .Absolute_Y⟩,
   ⟨0xA1, "LDA", 2, 6, .Indirect_X⟩,
   ⟨0xB1, "LDA", 2, 5, .Indirect_Y⟩,
   ⟨0xA2, "LDX", 2, 2, .Immediate⟩,
   ⟨0xA6, "LDX", 2, 3, .ZeroPage⟩,
   ⟨0xB6, "LDX", 2, 4, .ZeroPage_Y⟩,
   ⟨0xAE, "LDX", 3, 4, .Absolute⟩,
   ⟨0xBE, "LDX", 3, 4, .Absolute_Y⟩,
   ⟨0xA0, "LDY", 2, 2, .Immediate⟩,
   ⟨0xA4, "LDY", 2, 3, .ZeroPage⟩,
   ⟨0xB4, "LDY", 2, 4, .ZeroPage_X⟩,
   ⟨0xAC, "LDY", 3, 4, .Absolute⟩,
   ⟨0xBC, "LDY", 3, 4, .Absolute_X⟩,
   ⟨0x85, "STA", 2, 3, .ZeroPage⟩,
   ⟨0x95, "STA", 2, 4, .ZeroPage_X⟩,
   ⟨0x8D, "STA", 3, 4, .Absolute⟩,
   ⟨0x9D, "STA", 3, 5, .Absolute_X⟩,
   ⟨0x99, "STA", 3, 5, .Absolute_Y⟩,
   ⟨0x81, "STA", 2, 6, .Indirect_X⟩,
   ⟨0x91, "STA", 2, 6, .Indirect_Y⟩,
   ⟨0x86, "STX", 2, 3, .ZeroPage⟩,
   ⟨0x96, "STX", 2, 4, .ZeroPage_Y⟩,
   ⟨0x8E, "STX", 3, 4, .Absolute⟩,
   ⟨0x84, "STY", 2, 3, .ZeroPage⟩,
   ⟨0x94, "STY", 2, 4, .ZeroPage_X⟩,
   ⟨0x8C, "STY", 3, 4, .Absolute⟩]

/-- Modelled from the spec: the opcode-byte keyed lookup map
(`opscodes::OPCODES_MAP`), built from the rows of `CPU_OPS_CODES`. -/
def OPCODES_MAP (code : Nat) : Option OpCode :=
  CPU_OPS_CODES.find? (fun op => op.code = code)

/-- The body of the dispatch `match` in `CPU::run` for non-BRK opcodes:
the grouped arms call the handler for the mnemonic, the `_` arm is the
source's `todo!()`. (`0x00` returns from the loop before this match arm
ordering matters, see `CPU.step`.) -/
def CPU.dispatch (cpu : CPU) (code : Nat) (opcode : OpCode) : Except CpuError CPU :=
  if code ∈ [0xa9, 0xa5, 0xb5, 0xad, 0xbd, 0xb9, 0xa1, 0xb1] then cpu.lda opcode.mode
  else if code ∈ [0x85, 0x95, 0x8d, 0x9d, 0x99, 0x81, 0x91] then cpu.sta opcode.mode
  else if code = 0x69 then cpu.adc opcode.mode
  else if code = 0xE8 then .ok cpu.inx
  else if code = 0xAA then .ok cpu.tax
  else .error (.notImplemented code)

/-- The PC-advancement policy at the end of each loop iteration of
`CPU::run`: advance by `len - 1` only when the handler left the program
counter at its recorded post-fetch value. -/
def advancePC (program_counter_state len : Nat) (cpu : CPU) : CPU :=
  if program_counter_state = cpu.program_counter then
    { cpu with program_counter := cpu.program_counter + (len - 1) }
  else cpu

/-- Result of one iteration of the `CPU::run` loop: either the loop
continues with the new state, or the BRK opcode returned control. -/
inductive StepOutcome where
  | running (cpu : CPU)
  | halted (cpu : CPU)

/-- The CPU state carried by a step outcome. -/
def StepOutcome.cpu : StepOutcome → CPU
  | .running c => c
  | .halted c => c

/-- One iteration of the `CPU::run` loop: fetch the opcode byte, advance
the program counter by 1, record it, look the byte up in `OPCODES_MAP`
(`expect` aborts on a miss), execute the matching arm (BRK returns), and
apply the conditional PC advance. -/
def CPU.step (cpu : CPU) : Except CpuError StepOutcome := do
  let code ← cpu.mem_read cpu.program_counter
  let cpu1 : CPU := { cpu with program_counter := cpu.program_counter + 1 }
  let program_counter_state := cpu1.program_counter
  match OPCODES_MAP code with
  | none => .error (.unknownOpcode code)
  | some opcode =>
    if code = 0x00 then return .halted cpu1
    else do
      let cpu2 ← cpu1.dispatch code opcode
      return .running (advancePC program_counter_state opcode.len cpu2)

/-- Result of `CPU::run`: the source loops until BRK (or panic); since the
embedding is total, the loop is indexed by fuel. -/
inductive RunResult where
  | halted (cpu : CPU)
  | outOfFuel (cpu : CPU)

/-- `CPU::run` with an explicit iteration budget. A step error aborts the
whole run immediately. -/
def CPU.run (cpu : CPU) : Nat → Except CpuError RunResult
  | 0 => .ok (.outOfFuel cpu)
  | fuel + 1 =>
    match cpu.step with
    | .error e => .error e
    | .ok (.halted c) => .ok (.halted c)
    | .ok (.running c) => c.run fuel

/-- `CPU::load_and_run`. -/
def CPU.load_and_run (cpu : CPU) (program : List Nat) (fuel : Nat) :
    Except CpuError RunResult := do
  let c1 ← cpu.load program
  let c2 ← c1.reset
  c2.run fuel

/-! ## Basic lemmas about the embedding -/

theorem exc_bind_ok_iff {α β : Type} {e : Except CpuError α} {f : α → Except CpuError β}
    {b : β} : e >>= f = .ok b ↔ ∃ a, e = .ok a ∧ f a = .ok b := by
  cases e with
  | error err =>
    constructor
    · intro h; exact absurd h (by simp [Bind.bind, Except.bind])
    · rintro ⟨a, ha, -⟩; exact absurd ha (by simp)
  | ok a =>
    constructor
    · intro h; exact ⟨a, rfl, h⟩
    · rintro ⟨a', ha, hf⟩; cases ha; exact hf

@[simp] theorem exc_ok_bind {α β : Type} (a : α) (f : α → Except CpuError β) :
    (Except.ok a >>= f) = f a := rfl

@[simp] theorem exc_error_bind {α β : Type} (e : CpuError) (f : α → Except CpuError β) :
    ((Except.error e : Except CpuError α) >>= f) = .error e := rfl

theorem mem_read_ok_iff {cpu : CPU} {addr v : Nat} :
    cpu.mem_read addr = .ok v ↔ addr < MEMORY_SIZE ∧ v = cpu.memory addr := by
  unfold CPU.mem_read
  split_ifs with h <;> simp [h, eq_comm]

theorem mem_read_of_lt {cpu : CPU} {addr : Nat} (h : addr < MEMORY_SIZE) :
    cpu.mem_read addr = .ok (cpu.memory addr) := by
  unfold CPU.mem_read
  rw [if_pos h]

theorem mem_read_ok_lt {cpu : CPU} {addr v : Nat} (h : cpu.mem_read addr = .ok v) :
    addr < MEMORY_SIZE :=
  (mem_read_ok_iff.mp h).1

theorem shiftLeft8_lor_eq (hi lo : Nat) (h : lo < 256) :
    (hi <<< 8) ||| lo = 256 * hi + lo := by
  have h1 : hi <<< 8 = 2 ^ 8 * hi := by rw [Nat.shiftLeft_eq]; ring
  have h2 : 256 * hi + lo = 2 ^ 8 * hi + lo := by norm_num
  have hmul : ∀ i : Nat, (2 ^ 8 * hi).testBit i = if i < 8 then false else hi.testBit (i - 8) := by
    intro i
    have := Nat.testBit_mul_pow_two_add hi (show (0:Nat) < 2 ^ 8 by norm_num) i
    simpa using this
  rw [h1, h2]
  apply Nat.eq_of_testBit_eq
  intro i
  rw [Nat.testBit_lor, Nat.testBit_mul_pow_two_add hi (show lo < 2 ^ 8 from h) i, hmul i]
  rcases Nat.lt_or_ge i 8 with h8 | h8
  · rw [if_pos h8, if_pos h8, Bool.false_or]
  · rw [if_neg (Nat.not_lt_of_ge h8), if_neg (Nat.not_lt_of_ge h8)]
    have hz : lo.testBit i = false :=
      Nat.testBit_eq_false_of_lt
        (Nat.lt_of_lt_of_le h (Nat.pow_le_pow_right (show 0 < 2 by norm_num) h8))
    rw [hz, Bool.or_false]

@[simp] theorem update_flags_register_a (cpu : CPU) (v : Nat) :
    (cpu.update_zero_and_negative_flags v).register_a = cpu.register_a := by
  unfold CPU.update_zero_and_negative_flags
  split_ifs <;> rfl

@[simp] theorem update_flags_register_x (cpu : CPU) (v : Nat) :
    (cpu.update_zero_and_negative_flags v).register_x = cpu.register_x := by
  unfold CPU.update_zero_and_negative_flags
  split_ifs <;> rfl

@[simp] theorem update_flags_register_y (cpu : CPU) (v : Nat) :
    (cpu.update_zero_and_negative_flags v).register_y = cpu.register_y := by
  unfold CPU.update_zero_and_negative_flags
  split_ifs <;> rfl

@[simp] theorem update_flags_program_counter (cpu : CPU) (v : Nat) :
    (cpu.update_zero_and_negative_flags v).program_counter = cpu.program_counter := by
  unfold CPU.update_zero_and_negative_flags
  split_ifs <;> rfl

@[simp] theorem update_flags_stack_pointer (cpu : CPU) (v : Nat) :
    (cpu.update_zero_and_negative_flags v).stack_pointer = cpu.stack_pointer := by
  unfold CPU.update_zero_and_negative_flags
  split_ifs <;> rfl

@[simp] theorem update_flags_memory (cpu : CPU) (v : Nat) :
    (cpu.update_zero_and_negative_flags v).memory = cpu.memory := by
  unfold CPU.update_zero_and_negative_flags
  split_ifs <;> rfl

theorem update_flags_status (cpu : CPU) (v : Nat) :
    (cpu.update_zero_and_negative_flags v).status =
      { cpu.status with ZERO := decide (v = 0), NEGATIV := decide (v &&& 128 ≠ 0) } := by
  unfold CPU.update_zero_and_negative_flags
  split_ifs with h1 h2 h2 <;> simp_all

/-! ## Claim C1 -/

/-- C1: the claim says `mem_read`/`mem_write` succeed for every address in
0x0000-0xFFFF including 0xFFFF. The code's backing array `[u8; 0xFFFF]`
has only 65535 entries, so both accessors go out of bounds (panic) at
address 0xFFFF, for every CPU state: the code contradicts the documented
contract. -/
theorem mem_accessors_panic_at_0xFFFF : ∀ (cpu : CPU) (data : Nat),
    cpu.mem_read 0xFFFF = .error (.memOutOfBounds 0xFFFF) ∧
    cpu.mem_write 0xFFFF data = .error (.memOutOfBounds 0xFFFF) := by
  intro cpu data
  constructor
  · unfold CPU.mem_read MEMORY_SIZE
    norm_num
  · unfold CPU.mem_write MEMORY_SIZE
    norm_num

/-! ## Claim C7 -/

/-- C7: `reset` zeroes A and X, leaves Y (and the stack pointer and all of
memory) unchanged, restores the power-on status byte 0b100100
(Interrupt-Disable and Break2 set, every other flag clear), and loads the
program counter from the little-endian vector at 0xFFFC. -/
theorem reset_spec (cpu : CPU) (hmem : ∀ a, cpu.memory a < 256) :
    cpu.reset = .ok { cpu with
      register_a := 0
      register_x := 0
      status := ⟨false, false, true, false, false, true, false, false⟩
      program_counter := cpu.memory 0xFFFC + 256 * cpu.memory 0xFFFD } := by
  have hlo : cpu.mem_read 0xFFFC = .ok (cpu.memory 0xFFFC) :=
    mem_read_of_lt (by norm_num [MEMORY_SIZE])
  have hhi : cpu.mem_read (0xFFFC + 1) = .ok (cpu.memory 0xFFFD) := by
    have : (0xFFFC + 1 : Nat) = 0xFFFD := by norm_num
    rw [this]
    exact mem_read_of_lt (by norm_num [MEMORY_SIZE])
  have hst : CpuFlags.from_bits_truncate 0b100100 =
      ⟨false, false, true, false, false, true, false, false⟩ := by decide
  unfold CPU.reset CPU.mem_read_u16
  rw [hlo, exc_ok_bind, hhi, exc_ok_bind]
  have hcomb : (cpu.memory 0xFFFD <<< 8) ||| cpu.memory 0xFFFC =
      cpu.memory 0xFFFC + 256 * cpu.memory 0xFFFD := by
    rw [shiftLeft8_lor_eq _ _ (hmem 0xFFFC)]
    ring
  simp only [Except.pure, pure]
  rw [hst, hcomb]
  rfl

/-- Witness for C7: `reset_spec` applied to the freshly constructed CPU. -/
theorem reset_spec_witness :
    CPU.new.reset = .ok { CPU.new with
      register_a := 0
      register_x := 0
      status := ⟨false, false, true, false, false, true, false, false⟩
      program_counter := CPU.new.memory 0xFFFC + 256 * CPU.new.memory 0xFFFD } :=
  reset_spec CPU.new (fun a => by show (0:Nat) < 256; norm_num)

/-! ## Claim C8 -/

/-- C8 counterexample: a CPU whose stack pointer was changed to 0 before
`reset` still has stack pointer 0 (not 0xFD) afterwards, because `reset`
never touches the stack pointer. -/
theorem reset_stack_pointer_counterexample :
    (({ CPU.new with stack_pointer := 0 } : CPU).reset.map CPU.stack_pointer) = .ok 0 ∧
    (0 : Nat) ≠ 0xFD := by
  constructor
  · rfl
  · decide

/-- C8 amended: the stack pointer is 0xFD after power-on construction, and
`reset` leaves the stack pointer unchanged (so it is 0xFD after a reset
only if it was still 0xFD before). -/
theorem stack_pointer_new_and_reset :
    CPU.new.stack_pointer = 0xFD ∧
    ∀ (cpu c : CPU), cpu.reset = .ok c → c.stack_pointer = cpu.stack_pointer := by
  constructor
  · rfl
  · intro cpu c h
    rw [CPU.reset] at h
    rcases exc_bind_ok_iff.mp h with ⟨pc, -, hret⟩
    cases hret
    rfl

/-- Witness for C8's amended theorem, at a CPU whose stack pointer is 7. -/
theorem stack_pointer_new_and_reset_witness :
    CPU.new.stack_pointer = 0xFD ∧
    (({ CPU.new with stack_pointer := 7 } : CPU)).stack_pointer =
      ({ CPU.new with stack_pointer := 7 } : CPU).stack_pointer :=
  ⟨stack_pointer_new_and_reset.1,
   stack_pointer_new_and_reset.2 { CPU.new with stack_pointer := 7 }
     { CPU.new with stack_pointer := 7 } rfl⟩

/-! ## Claim C10 -/

/-- C10: `load` succeeds exactly when the image fits below the end of the
backing array starting at 0x8000, i.e. when its length is at most 0x7FFF
(the array has 0xFFFF entries); any longer image makes the slice copy
panic, so the load aborts instead of truncating. -/
theorem load_ok_iff_fits (cpu : CPU) (program : List Nat) :
    (∃ c, cpu.load program = .ok c) ↔ program.length ≤ 0x7FFF := by
  unfold CPU.load
  split_ifs with h
  · constructor
    · intro _
      unfold MEMORY_SIZE at h
      omega
    · intro _
      exact ⟨_, rfl⟩
  · constructor
    · rintro ⟨c, hc⟩
      cases hc
    · intro hlen
      exfalso
      unfold MEMORY_SIZE at h
      omega

/-! ## Claim C9 -/

theorem mem_write_of_lt {cpu : CPU} {addr data : Nat} (h : addr < MEMORY_SIZE) :
    cpu.mem_write addr data =
      .ok { cpu with memory := fun i => if i = addr then data else cpu.memory i } := by
  unfold CPU.mem_write
  rw [if_pos h]

/-- C9: for a 16-bit value and a position safely below the top of the
address window, `mem_write_u16` followed by `mem_read_u16` returns the
same value, and the two byte reads show the low byte of the value at
`pos` and its high byte at `pos + 1` (little-endian). -/
theorem mem_u16_roundtrip (cpu : CPU) (pos data : Nat)
    (hpos : pos + 1 < MEMORY_SIZE) (hdata : data < 65536) :
    ∃ cpu', cpu.mem_write_u16 pos data = .ok cpu' ∧
      cpu'.mem_read_u16 pos = .ok data ∧
      cpu'.mem_read pos = .ok (data % 256) ∧
      cpu'.mem_read (pos + 1) = .ok (data / 256) := by
  have hpos0 : pos < MEMORY_SIZE := by omega
  have hlo : data &&& 0xff = data % 256 := by
    have h8 := Nat.and_pow_two_sub_one_eq_mod data 8
    norm_num at h8
    exact h8
  have hdivlt : data / 256 < 256 := by omega
  have hshift : data >>> 8 = data / 256 := by
    rw [Nat.shiftRight_eq_div_pow]
  have hhi : (data >>> 8) % 256 = data / 256 := by
    rw [hshift, Nat.mod_eq_of_lt hdivlt]
  have hne : pos ≠ pos + 1 := by omega
  have hne2 : pos + 1 ≠ pos := by omega
  refine ⟨{ cpu with memory := fun i =>
      if i = pos + 1 then (data >>> 8) % 256
      else if i = pos then data &&& 0xff else cpu.memory i }, ?_, ?_, ?_, ?_⟩
  · unfold CPU.mem_write_u16
    simp only [mem_write_of_lt hpos0, mem_write_of_lt hpos, exc_ok_bind]
  · unfold CPU.mem_read_u16
    rw [mem_read_of_lt hpos0, exc_ok_bind, mem_read_of_lt hpos, exc_ok_bind]
    simp only [hne, hne2, if_true, if_false, ite_true, ite_false, eq_self_iff_true]
    rw [hhi, hlo, shiftLeft8_lor_eq _ _ (by omega : data % 256 < 256)]
    have hsum : 256 * (data / 256) + data % 256 = data := by omega
    rw [hsum]
    rfl
  · rw [mem_read_of_lt hpos0]
    simp only [hne2, ite_false, if_false, eq_self_iff_true, ite_true]
    rw [if_neg hne, hlo]
  · rw [mem_read_of_lt hpos]
    simp only [eq_self_iff_true, ite_true]
    rw [hhi]

/-- Witness for C9 at `pos = 0x10`, `data = 0xABCD`. -/
theorem mem_u16_roundtrip_witness :
    ∃ cpu', CPU.new.mem_write_u16 0x10 0xABCD = .ok cpu' ∧
      cpu'.mem_read_u16 0x10 = .ok 0xABCD ∧
      cpu'.mem_read 0x10 = .ok (0xABCD % 256) ∧
      cpu'.mem_read (0x10 + 1) = .ok (0xABCD / 256) :=
  mem_u16_roundtrip CPU.new 0x10 0xABCD (by norm_num [MEMORY_SIZE]) (by norm_num)

/-! ## Claim C4 -/

theorem exc_bind_congr {α β : Type} {e : Except CpuError α} {f g : α → Except CpuError β}
    (h : ∀ a, e = .ok a → f a = g a) : e >>= f = e >>= g := by
  cases e with
  | error err => rfl
  | ok a => exact h a rfl

theorem exc_bind_assoc {α β γ : Type} (e : Except CpuError α) (f : α → Except CpuError β)
    (g : β → Except CpuError γ) : (e >>= f) >>= g = e >>= fun a => f a >>= g := by
  cases e <;> rfl

/-- The effective-address formula table of spec section 4.2, with the
little-endian 16-bit combination written arithmetically as
`low byte + 256 * high byte`, all 8-bit sums taken mod 256 and all 16-bit
sums mod 65536. -/
def operand_address_spec (cpu : CPU) (mode : AddressingMode) : Except CpuError Nat :=
  match mode with
  | .Immediate => .ok cpu.program_counter
  | .ZeroPage => cpu.mem_read cpu.program_counter
  | .ZeroPage_X => do
      let base ← cpu.mem_read cpu.program_counter
      return (base + cpu.register_x) % 256
  | .ZeroPage_Y => do
      let base ← cpu.mem_read cpu.program_counter
      return (base + cpu.register_y) % 256
  | .Absolute => do
      let lo ← cpu.mem_read cpu.program_counter
      let hi ← cpu.mem_read (cpu.program_counter + 1)
      return lo + 256 * hi
  | .Absolute_X => do
      let lo ← cpu.mem_read cpu.program_counter
      let hi ← cpu.mem_read (cpu.program_counter + 1)
      return (lo + 256 * hi + cpu.register_x) % 65536
  | .Absolute_Y => do
      let lo ← cpu.mem_read cpu.program_counter
      let hi ← cpu.mem_read (cpu.program_counter + 1)
      return (lo + 256 * hi + cpu.register_y) % 65536
  | .Indirect_X => do
      let base ← cpu.mem_read cpu.program_counter
      let ptr := (base + cpu.register_x) % 256
      let lo ← cpu.mem_read ptr
      let hi ← cpu.mem_read ((ptr + 1) % 256)
      return lo + 256 * hi
  | .Indirect_Y => do
      let base ← cpu.mem_read cpu.program_counter
      let lo ← cpu.mem_read base
      let hi ← cpu.mem_read ((base + 1) % 256)
      return (lo + 256 * hi + cpu.register_y) % 65536
  | .NoneAddressing => .error (.unsupportedMode .NoneAddressing)

/-- C4: for every addressing mode, program counter and register file (with
byte-valued memory), `get_operand_address` computes exactly the fixed
formula of the spec's mode table, including every 8-bit wrap mod 256 and
16-bit wrap mod 65536. -/
theorem get_operand_address_matches_mode_table (cpu : CPU) (mode : AddressingMode)
    (hmem : ∀ a, cpu.memory a < 256) :
    cpu.get_operand_address mode = operand_address_spec cpu mode := by
  have hbyte : ∀ {p v : Nat}, cpu.mem_read p = .ok v → v < 256 := by
    intro p v h
    rcases mem_read_ok_iff.mp h with ⟨-, rfl⟩
    exact hmem p
  cases mode with
  | Immediate => rfl
  | ZeroPage => rfl
  | ZeroPage_X => rfl
  | ZeroPage_Y => rfl
  | NoneAddressing => rfl
  | Absolute =>
    show cpu.mem_read_u16 cpu.program_counter = _
    unfold CPU.mem_read_u16 operand_address_spec
    apply exc_bind_congr
    intro lo hlo
    apply exc_bind_congr
    intro hi _
    show Except.ok ((hi <<< 8) ||| lo) = Except.ok (lo + 256 * hi)
    rw [shiftLeft8_lor_eq hi lo (hbyte hlo), Nat.add_comm]
  | Absolute_X =>
    show cpu.mem_read_u16 cpu.program_counter >>= _ = _
    unfold CPU.mem_read_u16 operand_address_spec
    rw [exc_bind_assoc]
    apply exc_bind_congr
    intro lo hlo
    rw [exc_bind_assoc]
    apply exc_bind_congr
    intro hi _
    show Except.ok ((((hi <<< 8) ||| lo) + cpu.register_x) % 65536) =
      Except.ok ((lo + 256 * hi + cpu.register_x) % 65536)
    rw [shiftLeft8_lor_eq hi lo (hbyte hlo)]
    congr 1
    omega
  | Absolute_Y =>
    show cpu.mem_read_u16 cpu.program_counter >>= _ = _
    unfold CPU.mem_read_u16 operand_address_spec
    rw [exc_bind_assoc]
    apply exc_bind_congr
    intro lo hlo
    rw [exc_bind_assoc]
    apply exc_bind_congr
    intro hi _
    show Except.ok ((((hi <<< 8) ||| lo) + cpu.register_y) % 65536) =
      Except.ok ((lo + 256 * hi + cpu.register_y) % 65536)
    rw [shiftLeft8_lor_eq hi lo (hbyte hlo)]
    congr 1
    omega
  | Indirect_X =>
    unfold CPU.get_operand_address operand_address_spec
    apply exc_bind_congr
    intro base _
    apply exc_bind_congr
    intro lo hlo
    apply exc_bind_congr
    intro hi _
    show Except.ok ((hi <<< 8) ||| lo) = Except.ok (lo + 256 * hi)
    rw [shiftLeft8_lor_eq hi lo (hbyte hlo), Nat.add_comm]
  | Indirect_Y =>
    unfold CPU.get_operand_address operand_address_spec
    apply exc_bind_congr
    intro base _
    apply exc_bind_congr
    intro lo hlo
    apply exc_bind_congr
    intro hi _
    show Except.ok ((((hi <<< 8) ||| lo) + cpu.register_y) % 65536) =
      Except.ok ((lo + 256 * hi + cpu.register_y) % 65536)
    rw [shiftLeft8_lor_eq hi lo (hbyte hlo)]
    congr 1
    omega

/-- Witness for C4: the resolver agrees with the spec table on a concrete
CPU, exercised at the pre-indexed indirect mode. -/
theorem get_operand_address_matches_mode_table_witness :
    ({ CPU.new with program_counter := 0x8000 } : CPU).get_operand_address .Indirect_X =
      operand_address_spec { CPU.new with program_counter := 0x8000 } .Indirect_X :=
  get_operand_address_matches_mode_table { CPU.new with program_counter := 0x8000 }
    .Indirect_X (fun a => by show (0:Nat) < 256; norm_num)

/-! ## Claim C3 -/

theorem exc_pure_ok_iff {α : Type} {a b : α} :
    (pure a : Except CpuError α) = .ok b ↔ a = b := by
  constructor
  · intro h
    injection h
  · intro h
    rw [h]
    rfl

/-- The shared flag rule of spec section 4.5 for a computed 8-bit result
`v`: Zero iff `v = 0`, Negative iff bit 7 of `v`, every other flag bit
untouched. -/
def zero_negative_contract (old new : CpuFlags) (v : Nat) : Prop :=
  (new.ZERO = true ↔ v = 0) ∧
  (new.NEGATIV = true ↔ v &&& 0x80 ≠ 0) ∧
  new.CARRY = old.CARRY ∧
  new.INTERRUPT_DISABLE = old.INTERRUPT_DISABLE ∧
  new.DECIMAL_MODE = old.DECIMAL_MODE ∧
  new.BREAK = old.BREAK ∧
  new.BREAK2 = old.BREAK2 ∧
  new.OVERFLOW = old.OVERFLOW

theorem update_satisfies_contract (cpu : CPU) (v : Nat) :
    zero_negative_contract cpu.status (cpu.update_zero_and_negative_flags v).status v := by
  rw [update_flags_status]
  unfold zero_negative_contract
  refine ⟨?_, ?_, rfl, rfl, rfl, rfl, rfl, rfl⟩
  · simp
  · simp

/-- C3: every load (LDA/LDX/LDY), transfer (TAX) and increment (INX)
handler leaves the status register satisfying the shared rule for the
value it stored: Zero iff the result is 0, Negative iff bit 7 of the
result is set, and the six other flag bits exactly as before. -/
theorem handlers_zero_negative_flag_contract :
    (∀ (cpu : CPU) (mode : AddressingMode) (c : CPU), cpu.lda mode = .ok c →
      zero_negative_contract cpu.status c.status c.register_a) ∧
    (∀ (cpu : CPU) (mode : AddressingMode) (c : CPU), cpu.ldx mode = .ok c →
      zero_negative_contract cpu.status c.status c.register_x) ∧
    (∀ (cpu : CPU) (mode : AddressingMode) (c : CPU), cpu.ldy mode = .ok c →
      zero_negative_contract cpu.status c.status c.register_y) ∧
    (∀ cpu : CPU, zero_negative_contract cpu.status cpu.tax.status cpu.tax.register_x) ∧
    (∀ cpu : CPU, zero_negative_contract cpu.status cpu.inx.status cpu.inx.register_x) := by
  refine ⟨?_, ?_, ?_, ?_, ?_⟩
  · intro cpu mode c h
    unfold CPU.lda at h
    rcases exc_bind_ok_iff.mp h with ⟨addr, -, h2⟩
    rcases exc_bind_ok_iff.mp h2 with ⟨v, -, h3⟩
    obtain rfl := exc_pure_ok_iff.mp h3
    rw [update_flags_register_a]
    exact update_satisfies_contract _ _
  · intro cpu mode c h
    unfold CPU.ldx at h
    rcases exc_bind_ok_iff.mp h with ⟨addr, -, h2⟩
    rcases exc_bind_ok_iff.mp h2 with ⟨v, -, h3⟩
    obtain rfl := exc_pure_ok_iff.mp h3
    rw [update_flags_register_x]
    exact update_satisfies_contract _ _
  · intro cpu mode c h
    unfold CPU.ldy at h
    rcases exc_bind_ok_iff.mp h with ⟨addr, -, h2⟩
    rcases exc_bind_ok_iff.mp h2 with ⟨v, -, h3⟩
    obtain rfl := exc_pure_ok_iff.mp h3
    rw [update_flags_register_y]
    exact update_satisfies_contract _ _
  · intro cpu
    unfold CPU.tax
    rw [update_flags_register_x]
    exact update_satisfies_contract _ _
  · intro cpu
    unfold CPU.inx
    rw [update_flags_register_x]
    exact update_satisfies_contract _ _

/-- A memory image holding the two-byte immediate load `LDA #$05` at the
program base address, used by the concrete execution examples below. -/
def demoMem : Nat → Nat :=
  fun i => if i = 0x8000 then 0xa9 else if i = 0x8001 then 0x05 else 0

def ldaDemo : CPU := { CPU.new with program_counter := 0x8001, memory := demoMem }

def ldaDemoResult : CPU :=
  { ldaDemo with
    register_a := 0x05
    status := ⟨false, false, true, false, false, true, false, false⟩ }

/-- Witness for C3: the LDA part of the contract at a concrete immediate
load of 0x05. -/
theorem handlers_zero_negative_flag_contract_witness :
    zero_negative_contract ldaDemo.status ldaDemoResult.status ldaDemoResult.register_a :=
  handlers_zero_negative_flag_contract.1 ldaDemo .Immediate ldaDemoResult rfl

/-! ## Claim C2 -/

theorem mem_write_ok_pc {cpu c : CPU} {addr d : Nat} (h : cpu.mem_write addr d = .ok c) :
    c.program_counter = cpu.program_counter := by
  unfold CPU.mem_write at h
  split_ifs at h
  injection h with h'
  subst h'
  rfl

theorem lda_preserves_pc {cpu c : CPU} {mode : AddressingMode} (h : cpu.lda mode = .ok c) :
    c.program_counter = cpu.program_counter := by
  unfold CPU.lda at h
  rcases exc_bind_ok_iff.mp h with ⟨addr, -, h2⟩
  rcases exc_bind_ok_iff.mp h2 with ⟨v, -, h3⟩
  obtain rfl := exc_pure_ok_iff.mp h3
  rw [update_flags_program_counter]

theorem sta_preserves_pc {cpu c : CPU} {mode : AddressingMode} (h : cpu.sta mode = .ok c) :
    c.program_counter = cpu.program_counter := by
  unfold CPU.sta at h
  rcases exc_bind_ok_iff.mp h with ⟨addr, -, h2⟩
  exact mem_write_ok_pc h2

theorem adc_preserves_pc {cpu c : CPU} {mode : AddressingMode} (h : cpu.adc mode = .ok c) :
    c.program_counter = cpu.program_counter := by
  unfold CPU.adc at h
  rcases exc_bind_ok_iff.mp h with ⟨addr, -, h2⟩
  rcases exc_bind_ok_iff.mp h2 with ⟨v, -, h3⟩
  obtain rfl := exc_pure_ok_iff.mp h3
  rw [update_flags_program_counter]

theorem inx_preserves_pc (cpu : CPU) : cpu.inx.program_counter = cpu.program_counter := by
  unfold CPU.inx
  rw [update_flags_program_counter]

theorem tax_preserves_pc (cpu : CPU) : cpu.tax.program_counter = cpu.program_counter := by
  unfold CPU.tax
  rw [update_flags_program_counter]

/-- None of the handlers dispatched by `CPU::run` modifies the program
counter (control-flow instructions are not implemented yet). -/
theorem dispatch_preserves_pc {cpu c : CPU} {code : Nat} {op : OpCode}
    (h : cpu.dispatch code op = .ok c) : c.program_counter = cpu.program_counter := by
  unfold CPU.dispatch at h
  split_ifs at h
  · exact lda_preserves_pc h
  · exact sta_preserves_pc h
  · exact adc_preserves_pc h
  · injection h with h'
    subst h'
    exact inx_preserves_pc cpu
  · injection h with h'
    subst h'
    exact tax_preserves_pc cpu

/-- C2: in a run-loop step the program counter is advanced by exactly 1
right after the opcode fetch (the handler runs on that post-fetch state);
after the handler returns, the engine adds `length - 1` exactly when the
program counter still equals its post-fetch value, and otherwise leaves it
exactly as the handler set it. For the handlers that exist, the program
counter always still equals the post-fetch value (third conjunct). -/
theorem run_step_pc_policy (cpu cpu2 : CPU) (code : Nat) (op : OpCode)
    (hread : cpu.mem_read cpu.program_counter = .ok code)
    (hop : OPCODES_MAP code = some op)
    (hne : code ≠ 0)
    (hrun : ({ cpu with program_counter := cpu.program_counter + 1 } : CPU).dispatch code op
      = .ok cpu2) :
    cpu.step = .ok (.running (advancePC (cpu.program_counter + 1) op.len cpu2)) ∧
    (advancePC (cpu.program_counter + 1) op.len cpu2).program_counter =
      (if cpu.program_counter + 1 = cpu2.program_counter
       then cpu.program_counter + 1 + (op.len - 1)
       else cpu2.program_counter) ∧
    cpu2.program_counter = cpu.program_counter + 1 := by
  refine ⟨?_, ?_, ?_⟩
  · unfold CPU.step
    rw [hread, exc_ok_bind, hop]
    simp only [hne, if_false, ite_false]
    rw [hrun, exc_ok_bind]
    rfl
  · unfold advancePC
    split_ifs with h
    · show cpu2.program_counter + (op.len - 1) = cpu.program_counter + 1 + (op.len - 1)
      rw [← h]
    · rfl
  · rw [dispatch_preserves_pc hrun]

def stepDemo : CPU := { CPU.new with program_counter := 0x8000, memory := demoMem }

def stepDemoResult : CPU :=
  { stepDemo with
    program_counter := 0x8001
    register_a := 0x05
    status := ⟨false, false, true, false, false, true, false, false⟩ }

/-- Witness for C2: the policy at a concrete `LDA #$05` step fetched from
0x8000. -/
theorem run_step_pc_policy_witness :
    stepDemo.step = .ok (.running (advancePC (stepDemo.program_counter + 1)
      (⟨0xa9, "LDA", 2, 2, .Immediate⟩ : OpCode).len stepDemoResult)) ∧
    (advancePC (stepDemo.program_counter + 1)
      (⟨0xa9, "LDA", 2, 2, .Immediate⟩ : OpCode).len stepDemoResult).program_counter =
      (if stepDemo.program_counter + 1 = stepDemoResult.program_counter
       then stepDemo.program_counter + 1 + ((⟨0xa9, "LDA", 2, 2, .Immediate⟩ : OpCode).len - 1)
       else stepDemoResult.program_counter) ∧
    stepDemoResult.program_counter = stepDemo.program_counter + 1 :=
  run_step_pc_policy stepDemo stepDemoResult 0xa9 ⟨0xa9, "LDA", 2, 2, .Immediate⟩
    rfl rfl (by decide) rfl

/-! ## Claim C6 -/

/-- Discriminates the two fatal-error kinds named by the spec (unknown
opcode, unsupported addressing mode) from any other abort cause. -/
def is_designed_fatal : CpuError → Bool
  | .unknownOpcode _ => true
  | .unsupportedMode _ => true
  | _ => false

/-- C6 counterexample: the two kinds named by the claim are not the only
fatal-error kinds. At program counter 0xFFFF a step aborts with an
out-of-bounds memory panic (third kind), and fetching 0xA2 — the LDX
immediate opcode, which has a table row but no arm in `CPU::run`'s
dispatch match — aborts in the match's `todo!()` arm (fourth kind);
neither is UnknownOpcode or UnsupportedAddressingMode. -/
theorem undesigned_fatal_error_kinds_exist :
    ({ CPU.new with program_counter := 0xFFFF } : CPU).step =
      .error (.memOutOfBounds 0xFFFF) ∧
    is_designed_fatal (.memOutOfBounds 0xFFFF) = false ∧
    ({ CPU.new with memory := fun _ => 0xA2 } : CPU).step =
      .error (.notImplemented 0xA2) ∧
    is_designed_fatal (.notImplemented 0xA2) = false := by
  refine ⟨?_, ?_, ?_, ?_⟩
  · rfl
  · rfl
  · rfl
  · rfl

/-- C6 amended: both designed fatal-error kinds behave as claimed — an
opcode byte absent from the table aborts the step with UnknownOpcode
carrying the offending byte, resolving an operand address in the
Implicit/NoneAddressing mode fails fast with the offending mode, and any
step error aborts the whole run immediately, before any further step.
(They are not the only abort kinds; see the counterexample above.) -/
theorem designed_fatal_errors :
    (∀ (cpu : CPU) (code : Nat), cpu.mem_read cpu.program_counter = .ok code →
      OPCODES_MAP code = none → cpu.step = .error (.unknownOpcode code)) ∧
    (∀ cpu : CPU, cpu.get_operand_address .NoneAddressing =
      .error (.unsupportedMode .NoneAddressing)) ∧
    (∀ (cpu : CPU) (e : CpuError) (fuel : Nat), cpu.step = .error e →
      cpu.run (fuel + 1) = .error e) := by
  refine ⟨?_, ?_, ?_⟩
  · intro cpu code hread hop
    unfold CPU.step
    rw [hread, exc_ok_bind, hop]
  · intro cpu
    rfl
  · intro cpu e fuel h
    unfold CPU.run
    rw [h]

def unknownOpcodeDemo : CPU := { CPU.new with memory := fun _ => 0x02 }

/-- Witness for C6's theorem: the byte 0x02 has no table entry, and a step
fetching it aborts with UnknownOpcode 0x02. -/
theorem designed_fatal_errors_witness :
    unknownOpcodeDemo.step = .error (.unknownOpcode 0x02) :=
  designed_fatal_errors.1 unknownOpcodeDemo 0x02 rfl rfl

/-! ## Claim C5 -/

theorem mem_write_ok_lt {cpu c : CPU} {addr d : Nat} (h : cpu.mem_write addr d = .ok c) :
    addr < MEMORY_SIZE := by
  unfold CPU.mem_write at h
  split_ifs at h with hlt
  exact hlt

theorem mem_read_u16_ok_lt {cpu : CPU} {pos v : Nat} (h : cpu.mem_read_u16 pos = .ok v) :
    pos + 1 < MEMORY_SIZE := by
  unfold CPU.mem_read_u16 at h
  rcases exc_bind_ok_iff.mp h with ⟨lo, hlo, h2⟩
  rcases exc_bind_ok_iff.mp h2 with ⟨hi, hhi, -⟩
  exact mem_read_ok_lt hhi

/-- A successful `lda` must have read at least one byte at the program
counter (the operand byte, or for Immediate the data byte itself). -/
theorem lda_ok_pc_lt {cpu c : CPU} {mode : AddressingMode} (h : cpu.lda mode = .ok c) :
    cpu.program_counter < MEMORY_SIZE := by
  unfold CPU.lda at h
  rcases exc_bind_ok_iff.mp h with ⟨addr, haddr, h2⟩
  rcases exc_bind_ok_iff.mp h2 with ⟨v, hv, -⟩
  cases mode with
  | Immediate =>
    have ha : addr = cpu.program_counter := by
      unfold CPU.get_operand_address at haddr
      injection haddr with h'
      exact h'.symm
    rw [ha] at hv
    exact mem_read_ok_lt hv
  | ZeroPage =>
    unfold CPU.get_operand_address at haddr
    exact mem_read_ok_lt haddr
  | ZeroPage_X =>
    unfold CPU.get_operand_address at haddr
    rcases exc_bind_ok_iff.mp haddr with ⟨b, hb, -⟩
    exact mem_read_ok_lt hb
  | ZeroPage_Y =>
    unfold CPU.get_operand_address at haddr
    rcases exc_bind_ok_iff.mp haddr with ⟨b, hb, -⟩
    exact mem_read_ok_lt hb
  | Absolute =>
    unfold CPU.get_operand_address at haddr
    have h1 := mem_read_u16_ok_lt haddr
    have h2 : cpu.program_counter + 1 < 65535 := h1
    show cpu.program_counter < 65535
    omega
  | Absolute_X =>
    unfold CPU.get_operand_address at haddr
    rcases exc_bind_ok_iff.mp haddr with ⟨b, hb, -⟩
    have h1 := mem_read_u16_ok_lt hb
    have h2 : cpu.program_counter + 1 < 65535 := h1
    show cpu.program_counter < 65535
    omega
  | Absolute_Y =>
    unfold CPU.get_operand_address at haddr
    rcases exc_bind_ok_iff.mp haddr with ⟨b, hb, -⟩
    have h1 := mem_read_u16_ok_lt hb
    have h2 : cpu.program_counter + 1 < 65535 := h1
    show cpu.program_counter < 65535
    omega
  | Indirect_X =>
    unfold CPU.get_operand_address at haddr
    rcases exc_bind_ok_iff.mp haddr with ⟨b, hb, -⟩
    exact mem_read_ok_lt hb
  | Indirect_Y =>
    unfold CPU.get_operand_address at haddr
    rcases exc_bind_ok_iff.mp haddr with ⟨b, hb, -⟩
    exact mem_read_ok_lt hb
  | NoneAddressing =>
    unfold CPU.get_operand_address at haddr
    cases haddr

/-- A successful `lda` in an Absolute-family mode must have read both
operand bytes, at the program counter and right after it. -/
theorem lda_abs_ok_pc_succ_lt {cpu c : CPU} {mode : AddressingMode}
    (habs : mode = .Absolute ∨ mode = .Absolute_X ∨ mode = .Absolute_Y)
    (h : cpu.lda mode = .ok c) : cpu.program_counter + 1 < MEMORY_SIZE := by
  unfold CPU.lda at h
  rcases exc_bind_ok_iff.mp h with ⟨addr, haddr, -⟩
  rcases habs with rfl | rfl | rfl
  · unfold CPU.get_operand_address at haddr
    exact mem_read_u16_ok_lt haddr
  · unfold CPU.get_operand_address at haddr
    rcases exc_bind_ok_iff.mp haddr with ⟨b, hb, -⟩
    exact mem_read_u16_ok_lt hb
  · unfold CPU.get_operand_address at haddr
    rcases exc_bind_ok_iff.mp haddr with ⟨b, hb, -⟩
    exact mem_read_u16_ok_lt hb

/-- A successful `sta` likewise touches at least the byte at the program
counter (operand byte read, or for Immediate the write target itself). -/
theorem sta_ok_pc_lt {cpu c : CPU} {mode : AddressingMode} (h : cpu.sta mode = .ok c) :
    cpu.program_counter < MEMORY_SIZE := by
  unfold CPU.sta at h
  rcases exc_bind_ok_iff.mp h with ⟨addr, haddr, hw⟩
  cases mode with
  | Immediate =>
    have ha : addr = cpu.program_counter := by
      unfold CPU.get_operand_address at haddr
      injection haddr with h'
      exact h'.symm
    rw [ha] at hw
    exact mem_write_ok_lt hw
  | ZeroPage =>
    unfold CPU.get_operand_address at haddr
    exact mem_read_ok_lt haddr
  | ZeroPage_X =>
    unfold CPU.get_operand_address at haddr
    rcases exc_bind_ok_iff.mp haddr with ⟨b, hb, -⟩
    exact mem_read_ok_lt hb
  | ZeroPage_Y =>
    unfold CPU.get_operand_address at haddr
    rcases exc_bind_ok_iff.mp haddr with ⟨b, hb, -⟩
    exact mem_read_ok_lt hb
  | Absolute =>
    unfold CPU.get_operand_address at haddr
    have h1 := mem_read_u16_ok_lt haddr
    have h2 : cpu.program_counter + 1 < 65535 := h1
    show cpu.program_counter < 65535
    omega
  | Absolute_X =>
    unfold CPU.get_operand_address at haddr
    rcases exc_bind_ok_iff.mp haddr with ⟨b, hb, -⟩
    have h1 := mem_read_u16_ok_lt hb
    have h2 : cpu.program_counter + 1 < 65535 := h1
    show cpu.program_counter < 65535
    omega
  | Absolute_Y =>
    unfold CPU.get_operand_address at haddr
    rcases exc_bind_ok_iff.mp haddr with ⟨b, hb, -⟩
    have h1 := mem_read_u16_ok_lt hb
    have h2 : cpu.program_counter + 1 < 65535 := h1
    show cpu.program_counter < 65535
    omega
  | Indirect_X =>
    unfold CPU.get_operand_address at haddr
    rcases exc_bind_ok_iff.mp haddr with ⟨b, hb, -⟩
    exact mem_read_ok_lt hb
  | Indirect_Y =>
    unfold CPU.get_operand_address at haddr
    rcases exc_bind_ok_iff.mp haddr with ⟨b, hb, -⟩
    exact mem_read_ok_lt hb
  | NoneAddressing =>
    unfold CPU.get_operand_address at haddr
    cases haddr

theorem sta_abs_ok_pc_succ_lt {cpu c : CPU} {mode : AddressingMode}
    (habs : mode = .Absolute ∨ mode = .Absolute_X ∨ mode = .Absolute_Y)
    (h : cpu.sta mode = .ok c) : cpu.program_counter + 1 < MEMORY_SIZE := by
  unfold CPU.sta at h
  rcases exc_bind_ok_iff.mp h with ⟨addr, haddr, -⟩
  rcases habs with rfl | rfl | rfl
  · unfold CPU.get_operand_address at haddr
    exact mem_read_u16_ok_lt haddr
  · unfold CPU.get_operand_address at haddr
    rcases exc_bind_ok_iff.mp haddr with ⟨b, hb, -⟩
    exact mem_read_u16_ok_lt hb
  · unfold CPU.get_operand_address at haddr
    rcases exc_bind_ok_iff.mp haddr with ⟨b, hb, -⟩
    exact mem_read_u16_ok_lt hb

theorem adc_ok_pc_lt {cpu c : CPU} {mode : AddressingMode} (h : cpu.adc mode = .ok c) :
    cpu.program_counter < MEMORY_SIZE := by
  unfold CPU.adc at h
  rcases exc_bind_ok_iff.mp h with ⟨addr, haddr, h2⟩
  rcases exc_bind_ok_iff.mp h2 with ⟨v, hv, -⟩
  cases mode with
  | Immediate =>
    have ha : addr = cpu.program_counter := by
      unfold CPU.get_operand_address at haddr
      injection haddr with h'
      exact h'.symm
    rw [ha] at hv
    exact mem_read_ok_lt hv
  | ZeroPage =>
    unfold CPU.get_operand_address at haddr
    exact mem_read_ok_lt haddr
  | ZeroPage_X =>
    unfold CPU.get_operand_address at haddr
    rcases exc_bind_ok_iff.mp haddr with ⟨b, hb, -⟩
    exact mem_read_ok_lt hb
  | ZeroPage_Y =>
    unfold CPU.get_operand_address at haddr
    rcases exc_bind_ok_iff.mp haddr with ⟨b, hb, -⟩
    exact mem_read_ok_lt hb
  | Absolute =>
    unfold CPU.get_operand_address at haddr
    have h1 := mem_read_u16_ok_lt haddr
    have h2 : cpu.program_counter + 1 < 65535 := h1
    show cpu.program_counter < 65535
    omega
  | Absolute_X =>
    unfold CPU.get_operand_address at haddr
    rcases exc_bind_ok_iff.mp haddr with ⟨b, hb, -⟩
    have h1 := mem_read_u16_ok_lt hb
    have h2 : cpu.program_counter + 1 < 65535 := h1
    show cpu.program_counter < 65535
    omega
  | Absolute_Y =>
    unfold CPU.get_operand_address at haddr
    rcases exc_bind_ok_iff.mp haddr with ⟨b, hb, -⟩
    have h1 := mem_read_u16_ok_lt hb
    have h2 : cpu.program_counter + 1 < 65535 := h1
    show cpu.program_counter < 65535
    omega
  | Indirect_X =>
    unfold CPU.get_operand_address at haddr
    rcases exc_bind_ok_iff.mp haddr with ⟨b, hb, -⟩
    exact mem_read_ok_lt hb
  | Indirect_Y =>
    unfold CPU.get_operand_address at haddr
    rcases exc_bind_ok_iff.mp haddr with ⟨b, hb, -⟩
    exact mem_read_ok_lt hb
  | NoneAddressing =>
    unfold CPU.get_operand_address at haddr
    cases haddr

/-- For every opcode in the table, a successful dispatch leaves room to
advance the program counter by `len - 1` without leaving the 16-bit
range: the operand-byte reads performed by the handler bound the program
counter away from the top of memory. -/
theorem dispatch_ok_pc_fits {cpu c : CPU} {code : Nat} {op : OpCode}
    (hop : OPCODES_MAP code = some op)
    (hpc : cpu.program_counter < 65536)
    (h : cpu.dispatch code op = .ok c) :
    cpu.program_counter + (op.len - 1) < 65536 := by
  unfold CPU.dispatch at h
  split_ifs at h with h1 h2 h3 h4 h5
  · simp only [List.mem_cons, List.not_mem_nil, or_false] at h1
    rcases h1 with rfl | rfl | rfl | rfl | rfl | rfl | rfl | rfl
    · rw [show OPCODES_MAP 0xa9 = some ⟨0xa9, "LDA", 2, 2, AddressingMode.Immediate⟩
        from rfl] at hop
      injection hop with h'
      subst h'
      have hlt : cpu.program_counter < 65535 := lda_ok_pc_lt h
      show cpu.program_counter + (2 - 1) < 65536
      omega
    · rw [show OPCODES_MAP 0xa5 = some ⟨0xa5, "LDA", 2, 3, AddressingMode.ZeroPage⟩
        from rfl] at hop
      injection hop with h'
      subst h'
      have hlt : cpu.program_counter < 65535 := lda_ok_pc_lt h
      show cpu.program_counter + (2 - 1) < 65536
      omega
    · rw [show OPCODES_MAP 0xb5 = some ⟨0xb5, "LDA", 2, 4, AddressingMode.ZeroPage_X⟩
        from rfl] at hop
      injection hop with h'
      subst h'
      have hlt : cpu.program_counter < 65535 := lda_ok_pc_lt h
      show cpu.program_counter + (2 - 1) < 65536
      omega
    · rw [show OPCODES_MAP 0xad = some ⟨0xad, "LDA", 3, 4, AddressingMode.Absolute⟩
        from rfl] at hop
      injection hop with h'
      subst h'
      have hlt : cpu.program_counter + 1 < 65535 := lda_abs_ok_pc_succ_lt (Or.inl rfl) h
      show cpu.program_counter + (3 - 1) < 65536
      omega
    · rw [show OPCODES_MAP 0xbd = some ⟨0xbd, "LDA", 3, 4, AddressingMode.Absolute_X⟩
        from rfl] at hop
      injection hop with h'
      subst h'
      have hlt : cpu.program_counter + 1 < 65535 :=
        lda_abs_ok_pc_succ_lt (Or.inr (Or.inl rfl)) h
      show cpu.program_counter + (3 - 1) < 65536
      omega
    · rw [show OPCODES_MAP 0xb9 = some ⟨0xb9, "LDA", 3, 4, AddressingMode.Absolute_Y⟩
        from rfl] at hop
      injection hop with h'
      subst h'
      have hlt : cpu.program_counter + 1 < 65535 :=
        lda_abs_ok_pc_succ_lt (Or.inr (Or.inr rfl)) h
      show cpu.program_counter + (3 - 1) < 65536
      omega
    · rw [show OPCODES_MAP 0xa1 = some ⟨0xa1, "LDA", 2, 6, AddressingMode.Indirect_X⟩
        from rfl] at hop
      injection hop with h'
      subst h'
      have hlt : cpu.program_counter < 65535 := lda_ok_pc_lt h
      show cpu.program_counter + (2 - 1) < 65536
      omega
    · rw [show OPCODES_MAP 0xb1 = some ⟨0xb1, "LDA", 2, 5, AddressingMode.Indirect_Y⟩
        from rfl] at hop
      injection hop with h'
      subst h'
      have hlt : cpu.program_counter < 65535 := lda_ok_pc_lt h
      show cpu.program_counter + (2 - 1) < 65536
      omega
  · simp only [List.mem_cons, List.not_mem_nil, or_false] at h2
    rcases h2 with rfl | rfl | rfl | rfl | rfl | rfl | rfl
    · rw [show OPCODES_MAP 0x85 = some ⟨0x85, "STA", 2, 3, AddressingMode.ZeroPage⟩
        from rfl] at hop
      injection hop with h'
      subst h'
      have hlt : cpu.program_counter < 65535 := sta_ok_pc_lt h
      show cpu.program_counter + (2 - 1) < 65536
      omega
    · rw [show OPCODES_MAP 0x95 = some ⟨0x95, "STA", 2, 4, AddressingMode.ZeroPage_X⟩
        from rfl] at hop
      injection hop with h'
      subst h'
      have hlt : cpu.program_counter < 65535 := sta_ok_pc_lt h
      show cpu.program_counter + (2 - 1) < 65536
      omega
    · rw [show OPCODES_MAP 0x8d = some ⟨0x8d, "STA", 3, 4, AddressingMode.Absolute⟩
        from rfl] at hop
      injection hop with h'
      subst h'
      have hlt : cpu.program_counter + 1 < 65535 := sta_abs_ok_pc_succ_lt (Or.inl rfl) h
      show cpu.program_counter + (3 - 1) < 65536
      omega
    · rw [show OPCODES_MAP 0x9d = some ⟨0x9d, "STA", 3, 5, AddressingMode.Absolute_X⟩
        from rfl] at hop
      injection hop with h'
      subst h'
      have hlt : cpu.program_counter + 1 < 65535 :=
        sta_abs_ok_pc_succ_lt (Or.inr (Or.inl rfl)) h
      show cpu.program_counter + (3 - 1) < 65536
      omega
    · rw [show OPCODES_MAP 0x99 = some ⟨0x99, "STA", 3, 5, AddressingMode.Absolute_Y⟩
        from rfl] at hop
      injection hop with h'
      subst h'
      have hlt : cpu.program_counter + 1 < 65535 :=
        sta_abs_ok_pc_succ_lt (Or.inr (Or.inr rfl)) h
      show cpu.program_counter + (3 - 1) < 65536
      omega
    · rw [show OPCODES_MAP 0x81 = some ⟨0x81, "STA", 2, 6, AddressingMode.Indirect_X⟩
        from rfl] at hop
      injection hop with h'
      subst h'
      have hlt : cpu.program_counter < 65535 := sta_ok_pc_lt h
      show cpu.program_counter + (2 - 1) < 65536
      omega
    · rw [show OPCODES_MAP 0x91 = some ⟨0x91, "STA", 2, 6, AddressingMode.Indirect_Y⟩
        from rfl] at hop
      injection hop with h'
      subst h'
      have hlt : cpu.program_counter < 65535 := sta_ok_pc_lt h
      show cpu.program_counter + (2 - 1) < 65536
      omega
  · subst h3
    rw [show OPCODES_MAP 0x69 = some ⟨0x69, "ADC", 2, 2, AddressingMode.Immediate⟩
      from rfl] at hop
    injection hop with h'
    subst h'
    have hlt : cpu.program_counter < 65535 := adc_ok_pc_lt h
    show cpu.program_counter + (2 - 1) < 65536
    omega
  · subst h4
    rw [show OPCODES_MAP 0xE8 = some ⟨0xE8, "INX", 1, 2, AddressingMode.NoneAddressing⟩
      from rfl] at hop
    injection hop with h'
    subst h'
    show cpu.program_counter + (1 - 1) < 65536
    omega
  · subst h5
    rw [show OPCODES_MAP 0xAA = some ⟨0xAA, "TAX", 1, 2, AddressingMode.NoneAddressing⟩
      from rfl] at hop
    injection hop with h'
    subst h'
    show cpu.program_counter + (1 - 1) < 65536
    omega

/-- Any iteration of the run loop that completes without a panic leaves
the program counter strictly below 2^16: none of the program-counter
additions in `CPU::run` can overflow the 16-bit register. -/
theorem step_ok_pc_bound (cpu : CPU) (o : StepOutcome) (h : cpu.step = .ok o) :
    o.cpu.program_counter < 65536 := by
  unfold CPU.step at h
  rcases exc_bind_ok_iff.mp h with ⟨code, hread, h2⟩
  have hfetch : cpu.program_counter < 65535 := mem_read_ok_lt hread
  cases hop : OPCODES_MAP code with
  | none =>
    rw [hop] at h2
    exact absurd h2 (by simp)
  | some op =>
    rw [hop] at h2
    replace h2 : (if code = 0 then
          (pure (StepOutcome.halted { cpu with program_counter := cpu.program_counter + 1 })
            : Except CpuError StepOutcome)
        else
          ({ cpu with program_counter := cpu.program_counter + 1 } : CPU).dispatch code op >>=
            fun cpu2 => pure (.running (advancePC (cpu.program_counter + 1) op.len cpu2)))
        = .ok o := h2
    by_cases hc : code = 0
    · rw [if_pos hc] at h2
      obtain rfl := exc_pure_ok_iff.mp h2
      show cpu.program_counter + 1 < 65536
      omega
    · rw [if_neg hc] at h2
      rcases exc_bind_ok_iff.mp h2 with ⟨cpu2, hd, h3⟩
      obtain rfl := exc_pure_ok_iff.mp h3
      have hpres : cpu2.program_counter = cpu.program_counter + 1 :=
        dispatch_preserves_pc hd
      have hfits := dispatch_ok_pc_fits hop (show cpu.program_counter + 1 < 65536 by omega) hd
      have hfits' : cpu.program_counter + 1 + (op.len - 1) < 65536 := hfits
      show (advancePC (cpu.program_counter + 1) op.len cpu2).program_counter < 65536
      unfold advancePC
      rw [if_pos hpres.symm]
      show cpu2.program_counter + (op.len - 1) < 65536
      omega

/-- C5: all register/program-counter arithmetic in the engine wraps and
never traps: `inx` wraps mod 256 (incrementing 0xFF yields 0x00 with Zero
set, Negative clear, no panic possible), and the two program-counter
advances of a run step can never overflow the 16-bit register — every
step that completes leaves the program counter below 2^16. -/
theorem wrapping_arithmetic_never_traps :
    (∀ cpu : CPU, cpu.inx.register_x = (cpu.register_x + 1) % 256) ∧
    (({ CPU.new with register_x := 0xFF } : CPU).inx.register_x = 0 ∧
      ({ CPU.new with register_x := 0xFF } : CPU).inx.status.ZERO = true ∧
      ({ CPU.new with register_x := 0xFF } : CPU).inx.status.NEGATIV = false) ∧
    (∀ (cpu : CPU) (o : StepOutcome), cpu.step = .ok o →
      o.cpu.program_counter < 65536) := by
  refine ⟨?_, ⟨?_, ?_, ?_⟩, ?_⟩
  · intro cpu
    unfold CPU.inx
    rw [update_flags_register_x]
  · rfl
  · rfl
  · rfl
  · exact step_ok_pc_bound

/-- Witness for C5: the bound applied to the concrete step that executes
the BRK opcode from a fresh CPU. -/
theorem wrapping_arithmetic_never_traps_witness :
    (StepOutcome.halted { CPU.new with program_counter := 1 }).cpu.program_counter < 65536 :=
  wrapping_arithmetic_never_traps.2.2 CPU.new
    (.halted { CPU.new with program_counter := 1 }) rfl

/-- C5 counterexample: with the program counter at 0xFFFF, a run-loop step
panics (out-of-bounds fetch from the 65535-entry backing array) before any
program-counter arithmetic executes, so a step at that state is not
panic-free as the claim states. -/
theorem step_at_top_of_memory_panics :
    ({ CPU.new with program_counter := 0xFFFF, register_x := 0x41 } : CPU).step =
      .error (.memOutOfBounds 0xFFFF) := rfl
